import Mathlib

/-!
Verification of the `Handler` trait of a WebSocket engine (handler.rs) and of
the frame codec / handshake accept-token computation described by its
specification.  Rust values are embedded shallowly: machine bytes become `Nat`
with explicit bounds, `Result<T>` becomes `Except Error T`, trait-with-default
methods become a record of hook functions together with a `defaultHandler`
record holding the trait's default bodies, and the blanket
`impl<F> Handler for F where F: Fn(Message) -> Result<()>` becomes a record
update of `defaultHandler`.
-/

namespace WsRs

/-- Opcode of a WebSocket frame (Continuation, Text, Binary, Close, Ping, Pong). -/
inductive OpCode where
  | Continuation
  | Text
  | Binary
  | Close
  | Ping
  | Pong
deriving DecidableEq

/-- The 4-byte masking key applied by repeating XOR on the wire. -/
structure MaskingKey where
  k1 : Nat
  k2 : Nat
  k3 : Nat
  k4 : Nat
deriving DecidableEq

/-- Modelled from the spec: the `Frame` type (src's frame.rs is not part of the
given sources; handler.rs consumes it through `has_rsv1/2/3`).  A frame carries
fin, the three extension-reserved bits, an opcode, an optional masking key
(present exactly when the frame is masked) and a payload of bytes, stored
logically unmasked. -/
structure Frame where
  fin : Bool
  rsv1 : Bool
  rsv2 : Bool
  rsv3 : Bool
  opcode : OpCode
  mask : Option MaskingKey
  payload : List Nat
deriving DecidableEq

/-- Accessor mirrored from the frame type used by `Handler::on_frame`. -/
def Frame.has_rsv1 (f : Frame) : Bool := f.rsv1

/-- Accessor mirrored from the frame type used by `Handler::on_frame`. -/
def Frame.has_rsv2 (f : Frame) : Bool := f.rsv2

/-- Accessor mirrored from the frame type used by `Handler::on_frame`. -/
def Frame.has_rsv3 (f : Frame) : Bool := f.rsv3

/-- A WebSocket message: text or binary (message.rs, used by handler.rs). -/
inductive Message where
  | Text (s : String)
  | Binary (b : List Nat)
deriving DecidableEq

/-- Modelled from the spec: the `CloseCode` enumeration of protocol::CloseCode. -/
inductive CloseCode where
  | Normal
  | GoingAway
  | ProtocolError
  | Unsupported
  | Abnormal
  | InvalidPayload
  | PolicyViolation
  | MessageTooBig
  | ExtensionRequired
  | InternalError
  | ServiceRestart
  | TryAgainLater
  | TlsHandshakeFailure
  | Application (code : Nat)
deriving DecidableEq

/-- The slice of `std::io::Error` that `Handler::on_error` inspects: its raw
OS error code, when one exists. -/
structure IoError where
  raw_os_error : Option Int
deriving DecidableEq

/-- Modelled from the spec: the error taxonomy of result::Kind.  handler.rs
uses the I/O variant (written `Kind::Io(err)` in the source) and the protocol
variant (`Kind::Protocol`). -/
inductive Kind where
  | IoFailure (err : IoError)
  | Protocol
  | Capacity
  | HandshakeFailure
  | Internal
  | Custom (msg : String)
deriving DecidableEq

/-- The library error type: a kind plus human-readable details. -/
structure Error where
  kind : Kind
  details : String
deriving DecidableEq

/-- `Error::new(kind, details)`. -/
def Error.new (kind : Kind) (details : String) : Error := ⟨kind, details⟩

/-- `Result<T>` of result.rs: success or a library `Error`. -/
abbrev Result (α : Type) : Type := Except Error α

/-- Observable outcome of the error-delivery hook: the default body either
returns early (ignoring the error) or reports it through the logging fallback. -/
inductive ErrorReport where
  | ignored
  | reported (e : Error)
deriving DecidableEq

/-- Modelled from the spec: a parsed URL, consumed as an opaque value. -/
structure Url where
  raw : String
deriving DecidableEq

/-- Modelled from the spec: a handshake `Request` holds the target resource,
the key, requested protocols and extensions, and the original headers. -/
structure Request where
  resource : String
  key : String
  protocols : List String
  extensions : List String
  headers : List (String × String)
deriving DecidableEq

/-- Modelled from the spec: a handshake `Response` holds the computed accept
token, the negotiated protocol/extensions, and the status. -/
structure Response where
  accept : String
  protocol : Option String
  extensions : List String
  status : Nat
deriving DecidableEq

/-- A completed handshake: the request/response pair plus peer addresses
(shape taken from handler.rs's own test, which builds a `Handshake` literal). -/
structure Handshake where
  request : Request
  response : Response
  peer_addr : Option String
  local_addr : Option String
deriving DecidableEq

/-- TLS method selector (openssl collaborator; handler.rs uses `Tlsv1`). -/
inductive SslMethod where
  | Tlsv1
  | Sslv23
deriving DecidableEq

/-- Who constructed a TLS context: the engine itself, or the application.
This provenance tag exists to state the spec's "never constructs TLS policy
itself" about the code. -/
inductive CtxOrigin where
  | engineCreated
  | applicationSupplied
deriving DecidableEq

/-- A TLS context (openssl collaborator): the method it was built with and the
provenance of its construction. -/
structure SslContext where
  method : SslMethod
  origin : CtxOrigin
deriving DecidableEq

/-- `SslContext::new(method)`: constructs a fresh context.  Any context
produced this way is engine-created, not supplied by the application. -/
def SslContext.new (m : SslMethod) : Result SslContext :=
  Except.ok ⟨m, CtxOrigin.engineCreated⟩

/-- A TLS session object wrapping the context it was derived from. -/
structure Ssl where
  context : SslContext
deriving DecidableEq

/-- `IntoSsl::into_ssl`: derives an `Ssl` session from a context. -/
def SslContext.into_ssl (c : SslContext) : Result Ssl :=
  Except.ok ⟨c⟩

/-- Big-endian byte encoding of `n` on `k` bytes (most significant first). -/
def beBytes : Nat → Nat → List Nat
  | 0, _ => []
  | k + 1, n => beBytes k (n / 256) ++ [n % 256]

/-- Big-endian byte decoding: folds bytes into the number they denote. -/
def fromBe (l : List Nat) : Nat :=
  l.foldl (fun a b => a * 256 + b) 0

/-- Left rotation of a 32-bit word (input assumed `< 2^32`). -/
def rotl32 (s x : Nat) : Nat :=
  ((x <<< s) % 4294967296) ||| (x >>> (32 - s))

/-- SHA-1 preprocessing: append the `0x80` marker, zero padding to 56 mod 64,
and the 64-bit big-endian bit length. -/
def sha1Pad (msg : List Nat) : List Nat :=
  let padZeros := (64 - (msg.length + 9) % 64) % 64
  msg ++ [128] ++ List.replicate padZeros 0 ++ beBytes 8 (msg.length * 8)

/-- Group bytes four at a time into big-endian 32-bit words. -/
def toWords : List Nat → List Nat
  | b1 :: b2 :: b3 :: b4 :: rest =>
      (((b1 * 256 + b2) * 256 + b3) * 256 + b4) :: toWords rest
  | _ => []

/-- Extend the 16 block words by `k` further words of the SHA-1 schedule. -/
def extendWords (ws : List Nat) : Nat → List Nat
  | 0 => ws
  | k + 1 =>
      let n := ws.length
      extendWords
        (ws ++ [rotl32 1 ((ws.getD (n - 3) 0) ^^^ (ws.getD (n - 8) 0) ^^^
                          (ws.getD (n - 14) 0) ^^^ (ws.getD (n - 16) 0))]) k

/-- SHA-1 round function for round `t`. -/
def sha1F (t b c d : Nat) : Nat :=
  if t < 20 then (b &&& c) ||| ((b ^^^ 4294967295) &&& d)
  else if t < 40 then b ^^^ c ^^^ d
  else if t < 60 then (b &&& c) ||| (b &&& d) ||| (c &&& d)
  else b ^^^ c ^^^ d

/-- SHA-1 round constant for round `t`. -/
def sha1K (t : Nat) : Nat :=
  if t < 20 then 1518500249
  else if t < 40 then 1859775393
  else if t < 60 then 2400959708
  else 3395469782

/-- The SHA-1 working state: five 32-bit words. -/
abbrev Sha1State : Type := Nat × Nat × Nat × Nat × Nat

/-- Run the SHA-1 compression rounds over the word schedule. -/
def sha1Rounds : List Nat → Nat → Sha1State → Sha1State
  | [], _, st => st
  | w :: ws, t, (a, b, c, d, e) =>
      sha1Rounds ws (t + 1)
        ((rotl32 5 a + sha1F t b c d + e + sha1K t + w) % 4294967296,
         a, rotl32 30 b, c, d)

/-- Compress one 64-byte block into the running hash state. -/
def sha1Block (h : Sha1State) (block : List Nat) : Sha1State :=
  let (a, b, c, d, e) := sha1Rounds (extendWords (toWords block) 64) 0 h
  ((h.1 + a) % 4294967296, (h.2.1 + b) % 4294967296, (h.2.2.1 + c) % 4294967296,
   (h.2.2.2.1 + d) % 4294967296, (h.2.2.2.2 + e) % 4294967296)

/-- Fold `nblocks` 64-byte blocks of `bytes` through the compression function. -/
def sha1Blocks (h : Sha1State) (bytes : List Nat) : Nat → Sha1State
  | 0 => h
  | k + 1 => sha1Blocks (sha1Block h (bytes.take 64)) (bytes.drop 64) k

/-- SHA-1 of a byte sequence, as its 20-byte big-endian digest. -/
def sha1 (msg : List Nat) : List Nat :=
  let padded := sha1Pad msg
  let (h0, h1, h2, h3, h4) :=
    sha1Blocks (1732584193, 4023233417, 2562383102, 271733878, 3285377520)
      padded (padded.length / 64)
  beBytes 4 h0 ++ beBytes 4 h1 ++ beBytes 4 h2 ++ beBytes 4 h3 ++ beBytes 4 h4

/-- The standard base64 alphabet. -/
def base64Alphabet : List Char :=
  "ABCDEFGHIJKLMNOPQRSTUVWXYZabcdefghijklmnopqrstuvwxyz0123456789+/".data

/-- The base64 digit for a 6-bit value. -/
def b64Char (n : Nat) : Char := base64Alphabet.getD n '?'

/-- Base64 encoding of a byte sequence, with `=` padding. -/
def base64Encode : List Nat → List Char
  | [] => []
  | [b1] => [b64Char (b1 / 4), b64Char (b1 % 4 * 16), '=', '=']
  | [b1, b2] =>
      [b64Char (b1 / 4), b64Char (b1 % 4 * 16 + b2 / 16), b64Char (b2 % 16 * 4), '=']
  | b1 :: b2 :: b3 :: rest =>
      let x := (b1 * 256 + b2) * 256 + b3
      b64Char (x / 262144) :: b64Char (x / 4096 % 64) :: b64Char (x / 64 % 64) ::
        b64Char (x % 64) :: base64Encode rest

/-- The fixed GUID of the WebSocket protocol, appended to the key before
hashing (RFC 6455). -/
def WS_GUID : String := "258EAFA5-E914-47DA-95CA-C5AB0DC85B11"

/-- Modelled from the spec: the handshake accept-token computation, a pure
function of the key: `base64(SHA-1(key ++ GUID))`.  Keys and the GUID are
ASCII, so `Char.toNat` is their byte value. -/
def hash_key (key : String) : String :=
  String.mk (base64Encode (sha1 ((key ++ WS_GUID).data.map Char.toNat)))

/-- Modelled from the spec: `Response::from_request` (handshake.rs is not part
of the given sources) builds the 101 response whose accept token is computed
from the request's key; header validation happens when the raw request is
parsed into a `Request`, so a well-formed `Request` value yields `Ok`. -/
def Response.from_request (req : Request) : Result Response :=
  Except.ok { accept := hash_key req.key, protocol := none, extensions := [], status := 101 }

/-- Modelled from the spec: `Request::from_url` generates an upgrade request
for the url's resource with a fresh random key (base64 of 16 random bytes).
The randomness source is outside the embedding; the key field stands for
whatever key was drawn.  No claim depends on its value. -/
def Request.from_url (url : Url) : Result Request :=
  Except.ok { resource := url.raw, key := "", protocols := [], extensions := [], headers := [] }

/-- The `Handler` trait as a record of its hooks.  Fields keep the trait's
method names; effectful logging in the source bodies is observationally inert
and is dropped, except for `on_error`, whose observable choice (ignore or
report) is returned explicitly. -/
structure Handler where
  on_shutdown : Unit
  on_open : Handshake → Result Unit
  on_message : Message → Result Unit
  on_close : CloseCode → String → Unit
  on_error : Error → ErrorReport
  on_request : Request → Result Response
  on_response : Response → Result Unit
  on_frame : Frame → Result (Option Frame)
  on_send_frame : Frame → Result (Option Frame)
  build_request : Url → Result Request
  build_ssl : Result Ssl

/-- The default bodies of every `Handler` method, translated from handler.rs:
`on_open`/`on_message`/`on_response` log and return `Ok(())`; `on_close` logs
only; `on_error` returns early on an I/O error whose raw OS code is 104 and
reports every other error; `on_request` delegates to `Response::from_request`;
`on_frame`/`on_send_frame` reject frames with any reserved bit set and pass
all others through; `build_request` delegates to `Request::from_url`;
`build_ssl` makes a fresh TLSv1 context and turns it into an `Ssl`. -/
def defaultHandler : Handler where
  on_shutdown := ()
  on_open := fun _shake => Except.ok ()
  on_message := fun _msg => Except.ok ()
  on_close := fun _code _reason => ()
  on_error := fun err =>
    match err.kind with
    | Kind.IoFailure ioe =>
        if ioe.raw_os_error = some 104 then ErrorReport.ignored
        else ErrorReport.reported err
    | _ => ErrorReport.reported err
  on_request := fun req => Response.from_request req
  on_response := fun _res => Except.ok ()
  on_frame := fun frame =>
    if frame.has_rsv1 || frame.has_rsv2 || frame.has_rsv3 then
      Except.error (Error.new Kind.Protocol "Encountered frame with reserved bits set.")
    else
      Except.ok (some frame)
  on_send_frame := fun frame =>
    if frame.has_rsv1 || frame.has_rsv2 || frame.has_rsv3 then
      Except.error (Error.new Kind.Protocol "Encountered frame with reserved bits set.")
    else
      Except.ok (some frame)
  build_request := fun url => Request.from_url url
  build_ssl := do
    let context ← SslContext.new SslMethod.Tlsv1
    context.into_ssl

/-- The blanket `impl<F> Handler for F where F: Fn(Message) -> Result<()>`:
it overrides `on_message` to call the function and inherits every other
default. -/
def fnHandler (f : Message → Result Unit) : Handler :=
  { defaultHandler with on_message := f }

/-- Wire value of an opcode (RFC 6455 nibble). -/
def OpCode.code : OpCode → Nat
  | .Continuation => 0
  | .Text => 1
  | .Binary => 2
  | .Close => 8
  | .Ping => 9
  | .Pong => 10

/-- Parse an opcode nibble; values other than the six known ones are invalid. -/
def OpCode.fromCode : Nat → Option OpCode
  | 0 => some .Continuation
  | 1 => some .Text
  | 2 => some .Binary
  | 8 => some .Close
  | 9 => some .Ping
  | 10 => some .Pong
  | _ => none

/-- Close, Ping and Pong are the control opcodes. -/
def OpCode.is_control : OpCode → Bool
  | .Close => true
  | .Ping => true
  | .Pong => true
  | _ => false

/-- The key byte used at (cyclic) position `i`. -/
def MaskingKey.byteAt (k : MaskingKey) : Nat → Nat
  | 0 => k.k1
  | 1 => k.k2
  | 2 => k.k3
  | _ => k.k4

/-- The masking transform: XOR each byte with the key byte at its index mod 4,
starting from position `i`. -/
def maskBytes (k : MaskingKey) : Nat → List Nat → List Nat
  | _, [] => []
  | i, b :: rest => (b ^^^ k.byteAt (i % 4)) :: maskBytes k (i + 1) rest

/-- First header byte: fin, the three reserved bits, and the opcode nibble. -/
def headerByte (fin rsv1 rsv2 rsv3 : Bool) (op : OpCode) : Nat :=
  (if fin then 128 else 0) + (if rsv1 then 64 else 0) + (if rsv2 then 32 else 0) +
    (if rsv3 then 16 else 0) + op.code

/-- The on-wire tail after the length field: the four key bytes followed by the
masked payload when a key is present, the raw payload otherwise. -/
def maskedPayload (mask : Option MaskingKey) (payload : List Nat) : List Nat :=
  match mask with
  | none => payload
  | some k => k.k1 :: k.k2 :: k.k3 :: k.k4 :: maskBytes k 0 payload

/-- Modelled from the spec: `encode(frame) -> bytes` of the FrameCodec
(frame.rs is not part of the given sources).  Header byte, then the mask bit
and the payload length in its minimal width (7-bit direct, 16-bit after the
escape 126, 64-bit after 127), then the masking key and the masked payload
when the frame is masked. -/
def Frame.encode (f : Frame) : List Nat :=
  let n := f.payload.length
  let maskBit := if f.mask.isSome then 128 else 0
  let lenBytes :=
    if n < 126 then [maskBit + n]
    else if n < 65536 then (maskBit + 126) :: beBytes 2 n
    else (maskBit + 127) :: beBytes 8 n
  headerByte f.fin f.rsv1 f.rsv2 f.rsv3 f.opcode :: lenBytes ++
    maskedPayload f.mask f.payload

/-- Outcome of `decode(buffer)`: not enough bytes yet (caller retains the
buffer), a protocol violation, or the next frame with the bytes consumed. -/
inductive DecodeResult where
  | incomplete
  | violation (msg : String)
  | frame (f : Frame) (consumed : Nat)
deriving DecidableEq

/-- Decoding after the payload length is known: enforce the control-frame
rules, read the masking key when the mask bit was set, and unmask the payload. -/
def decodeRest (opcode : OpCode) (fin rsv1 rsv2 rsv3 masked : Bool)
    (len headerLen : Nat) (rest : List Nat) : DecodeResult :=
  if opcode.is_control && (!fin || decide (125 < len)) then
    DecodeResult.violation "control frames must not be fragmented and carry at most 125 bytes"
  else if masked then
    match rest with
    | k1 :: k2 :: k3 :: k4 :: rest2 =>
        if rest2.length < len then DecodeResult.incomplete
        else
          DecodeResult.frame
            { fin := fin, rsv1 := rsv1, rsv2 := rsv2, rsv3 := rsv3, opcode := opcode,
              mask := some ⟨k1, k2, k3, k4⟩,
              payload := maskBytes ⟨k1, k2, k3, k4⟩ 0 (rest2.take len) }
            (headerLen + 4 + len)
    | _ => DecodeResult.incomplete
  else
    if rest.length < len then DecodeResult.incomplete
    else
      DecodeResult.frame
        { fin := fin, rsv1 := rsv1, rsv2 := rsv2, rsv3 := rsv3, opcode := opcode,
          mask := none, payload := rest.take len }
        (headerLen + len)

/-- Modelled from the spec: `decode(buffer) -> (frame?, bytes_consumed)` of the
FrameCodec.  Validates the opcode, the minimal-width length encoding and the
control-frame size and non-fragmentation rules; returns `incomplete` while the
buffer does not yet hold a full frame. -/
def decode (buf : List Nat) : DecodeResult :=
  match buf with
  | b0 :: b1 :: rest =>
      match OpCode.fromCode (b0 % 16) with
      | none => DecodeResult.violation "encountered invalid opcode"
      | some opcode =>
          let fin : Bool := decide (128 ≤ b0)
          let rsv1 : Bool := decide (64 ≤ b0 % 128)
          let rsv2 : Bool := decide (32 ≤ b0 % 64)
          let rsv3 : Bool := decide (16 ≤ b0 % 32)
          let masked : Bool := decide (128 ≤ b1)
          let len7 := b1 % 128
          if len7 < 126 then
            decodeRest opcode fin rsv1 rsv2 rsv3 masked len7 2 rest
          else if len7 = 126 then
            if rest.length < 2 then DecodeResult.incomplete
            else
              let len := fromBe (rest.take 2)
              if len < 126 then
                DecodeResult.violation "length encoding must use the minimal width"
              else decodeRest opcode fin rsv1 rsv2 rsv3 masked len 4 (rest.drop 2)
          else
            if rest.length < 8 then DecodeResult.incomplete
            else
              let len := fromBe (rest.take 8)
              if len < 65536 then
                DecodeResult.violation "length encoding must use the minimal width"
              else decodeRest opcode fin rsv1 rsv2 rsv3 masked len 10 (rest.drop 8)
  | _ => DecodeResult.incomplete

/-- C1: a frame with any of rsv1, rsv2, rsv3 set is rejected by the default
`Handler::on_frame` with a protocol error (no extension override in place). -/
theorem on_frame_default_rejects_reserved (f : Frame)
    (h : f.has_rsv1 = true ∨ f.has_rsv2 = true ∨ f.has_rsv3 = true) :
    defaultHandler.on_frame f =
      Except.error (Error.new Kind.Protocol "Encountered frame with reserved bits set.") := by
  rcases h with h | h | h <;> simp [defaultHandler, h]

/-- Witness for C1 at a concrete frame with rsv1 set. -/
theorem on_frame_default_rejects_reserved_witness :
    ((Frame.mk true true false false OpCode.Text none []).has_rsv1 = true ∨
     (Frame.mk true true false false OpCode.Text none []).has_rsv2 = true ∨
     (Frame.mk true true false false OpCode.Text none []).has_rsv3 = true) ∧
    defaultHandler.on_frame (Frame.mk true true false false OpCode.Text none []) =
      Except.error (Error.new Kind.Protocol "Encountered frame with reserved bits set.") :=
  ⟨Or.inl rfl, on_frame_default_rejects_reserved _ (Or.inl rfl)⟩

/-- C2: adapting a plain `Message → Result Unit` function to a `Handler` makes
`on_message` apply the function, and leaves every other hook extensionally
equal to the trait's default implementation. -/
theorem fnHandler_delegates_only_on_message (f : Message → Result Unit) :
    (∀ msg, (fnHandler f).on_message msg = f msg) ∧
    (fnHandler f).on_shutdown = defaultHandler.on_shutdown ∧
    (∀ shake, (fnHandler f).on_open shake = defaultHandler.on_open shake) ∧
    (∀ code reason, (fnHandler f).on_close code reason = defaultHandler.on_close code reason) ∧
    (∀ err, (fnHandler f).on_error err = defaultHandler.on_error err) ∧
    (∀ req, (fnHandler f).on_request req = defaultHandler.on_request req) ∧
    (∀ res, (fnHandler f).on_response res = defaultHandler.on_response res) ∧
    (∀ fr, (fnHandler f).on_frame fr = defaultHandler.on_frame fr) ∧
    (∀ fr, (fnHandler f).on_send_frame fr = defaultHandler.on_send_frame fr) ∧
    (∀ url, (fnHandler f).build_request url = defaultHandler.build_request url) ∧
    (fnHandler f).build_ssl = defaultHandler.build_ssl :=
  ⟨fun _ => rfl, rfl, fun _ => rfl, fun _ _ => rfl, fun _ => rfl, fun _ => rfl,
   fun _ => rfl, fun _ => rfl, fun _ => rfl, fun _ => rfl, rfl⟩

/-- C3: the default `Handler::on_error` ignores exactly the I/O errors whose
raw OS code is 104 (the connection-reset condition) and reports every other
error — any other I/O code (or none) and every non-I/O kind. -/
theorem on_error_default_policy (e : Error) :
    ((∃ ioe, e.kind = Kind.IoFailure ioe ∧ ioe.raw_os_error = some 104) →
      defaultHandler.on_error e = ErrorReport.ignored) ∧
    ((∀ ioe, e.kind = Kind.IoFailure ioe → ioe.raw_os_error ≠ some 104) →
      defaultHandler.on_error e = ErrorReport.reported e) := by
  obtain ⟨k, d⟩ := e
  constructor
  · rintro ⟨ioe', hk, h104⟩
    cases k <;> cases hk
    simp [defaultHandler, h104]
  · intro h
    cases k
    case IoFailure ioe =>
      have h104 := h ioe rfl
      simp [defaultHandler, h104]
    all_goals rfl

/-- Witness for C3: a reset-class I/O error is ignored and a protocol error is
reported. -/
theorem on_error_default_policy_witness :
    defaultHandler.on_error (Error.mk (Kind.IoFailure ⟨some 104⟩) "reset") =
      ErrorReport.ignored ∧
    defaultHandler.on_error (Error.mk Kind.Protocol "bad frame") =
      ErrorReport.reported (Error.mk Kind.Protocol "bad frame") :=
  ⟨(on_error_default_policy (Error.mk (Kind.IoFailure ⟨some 104⟩) "reset")).1
     ⟨⟨some 104⟩, rfl, rfl⟩,
   (on_error_default_policy (Error.mk Kind.Protocol "bad frame")).2
     (fun _ hk => nomatch hk)⟩

/-- C4: the default `Handler::on_send_frame` is extensionally equal to the
default `Handler::on_frame`: same error on reserved bits, same pass-through
otherwise. -/
theorem on_send_frame_default_eq_on_frame_default (f : Frame) :
    defaultHandler.on_send_frame f = defaultHandler.on_frame f := rfl

/-- C5: when rsv1, rsv2 and rsv3 are all clear, the default inbound and
outbound frame hooks return success carrying exactly the input frame — never a
modification and never the drop outcome `Ok(None)`. -/
theorem on_frame_default_passthrough (f : Frame)
    (h1 : f.has_rsv1 = false) (h2 : f.has_rsv2 = false) (h3 : f.has_rsv3 = false) :
    defaultHandler.on_frame f = Except.ok (some f) ∧
    defaultHandler.on_send_frame f = Except.ok (some f) := by
  constructor <;> simp [defaultHandler, h1, h2, h3]

/-- Witness for C5 at a concrete unreserved frame. -/
theorem on_frame_default_passthrough_witness :
    (Frame.mk true false false false OpCode.Binary none [7]).has_rsv1 = false ∧
    (Frame.mk true false false false OpCode.Binary none [7]).has_rsv2 = false ∧
    (Frame.mk true false false false OpCode.Binary none [7]).has_rsv3 = false ∧
    (defaultHandler.on_frame (Frame.mk true false false false OpCode.Binary none [7]) =
       Except.ok (some (Frame.mk true false false false OpCode.Binary none [7])) ∧
     defaultHandler.on_send_frame (Frame.mk true false false false OpCode.Binary none [7]) =
       Except.ok (some (Frame.mk true false false false OpCode.Binary none [7]))) :=
  ⟨rfl, rfl, rfl, on_frame_default_passthrough _ rfl rfl rfl⟩

set_option maxRecDepth 100000 in
/-- C6: the accept token is the pure function `base64(SHA-1(key ++ GUID))` of
the key; on the RFC sample key it evaluates to the RFC sample token, and the
default `Handler::on_request` answers every request with the 101 response
whose accept token is computed from the request's key by this function. -/
theorem on_request_default_accept_token :
    hash_key "dGhlIHNhbXBsZSBub25jZQ==" = "s3pPLMBiTxaQ9kYGzzhZRbK+xOo=" ∧
    ∀ req : Request, defaultHandler.on_request req =
      Except.ok { accept := hash_key req.key, protocol := none,
                  extensions := [], status := 101 } := by
  exact ⟨by decide, fun _ => rfl⟩

/-- C8: the close-notification hook returns no value (its type admits no
failure), and the default body does nothing observable beyond logging. -/
theorem on_close_default_no_failure (code : CloseCode) (reason : String) :
    defaultHandler.on_close code reason = () := rfl

/-- C9 counterexample: the default `Handler::build_ssl` returns an `Ssl`
wrapping an engine-created context, not an application-supplied one — it
calls `SslContext::new(SslMethod::Tlsv1)` itself. -/
theorem build_ssl_default_origin :
    Except.map (fun s => s.context.origin) defaultHandler.build_ssl =
      Except.ok CtxOrigin.engineCreated := rfl

/-- C9 (amended): the default `Handler::build_ssl` constructs a fresh TLSv1
context internally and converts it into the returned `Ssl`; a caller-supplied
context enters only if the application overrides the hook. -/
theorem build_ssl_default_creates_context :
    defaultHandler.build_ssl =
      Except.ok { context := { method := SslMethod.Tlsv1,
                               origin := CtxOrigin.engineCreated } } := rfl

/-- C10: the default `on_open`, `on_message` and `on_response` return success
on every input, so a handler relying on them never fails a connection through
these hooks. -/
theorem default_hooks_always_ok :
    (∀ shake, defaultHandler.on_open shake = Except.ok ()) ∧
    (∀ msg, defaultHandler.on_message msg = Except.ok ()) ∧
    (∀ res, defaultHandler.on_response res = Except.ok ()) :=
  ⟨fun _ => rfl, fun _ => rfl, fun _ => rfl⟩

theorem beBytes_length (k : Nat) : ∀ n, (beBytes k n).length = k := by
  induction k with
  | zero => intro n; rfl
  | succ k ih => intro n; simp [beBytes, ih]

theorem fromBe_append_single (xs : List Nat) (b : Nat) :
    fromBe (xs ++ [b]) = fromBe xs * 256 + b := by
  simp [fromBe, List.foldl_append]

theorem fromBe_beBytes (k : Nat) : ∀ n, n < 256 ^ k → fromBe (beBytes k n) = n := by
  induction k with
  | zero =>
      intro n h
      simp only [Nat.pow_zero] at h
      simp only [beBytes, fromBe, List.foldl_nil]
      omega
  | succ k ih =>
      intro n h
      rw [pow_succ] at h
      rw [beBytes, fromBe_append_single, ih (n / 256) (by omega)]
      omega

theorem maskBytes_length (k : MaskingKey) : ∀ i xs, (maskBytes k i xs).length = xs.length := by
  intro i xs
  induction xs generalizing i with
  | nil => rfl
  | cons b rest ih => simp [maskBytes, ih]

theorem maskBytes_maskBytes (k : MaskingKey) : ∀ i xs, maskBytes k i (maskBytes k i xs) = xs := by
  intro i xs
  induction xs generalizing i with
  | nil => rfl
  | cons b rest ih => simp [maskBytes, ih, Nat.xor_cancel_right]

theorem take_maskBytes (k : MaskingKey) (i : Nat) (payload : List Nat) :
    (maskBytes k i payload).take payload.length = maskBytes k i payload := by
  rw [← maskBytes_length k i payload]
  exact List.take_length _

theorem maskedPayload_length (mask : Option MaskingKey) (payload : List Nat) :
    (maskedPayload mask payload).length = (if mask.isSome then 4 else 0) + payload.length := by
  cases mask <;> simp [maskedPayload, maskBytes_length]
  omega

theorem headerByte_spec (a b c d : Bool) (op : OpCode) :
    OpCode.fromCode (headerByte a b c d op % 16) = some op ∧
    decide (128 ≤ headerByte a b c d op) = a ∧
    decide (64 ≤ headerByte a b c d op % 128) = b ∧
    decide (32 ≤ headerByte a b c d op % 64) = c ∧
    decide (16 ≤ headerByte a b c d op % 32) = d := by
  cases a <;> cases b <;> cases c <;> cases d <;> cases op <;> decide

theorem maskBit_spec (m : Bool) (c : Nat) (hc : c < 128) :
    decide (128 ≤ (if m then 128 else 0) + c) = m ∧
    ((if m then 128 else 0) + c) % 128 = c := by
  cases m <;> refine ⟨?_, ?_⟩ <;> simp <;> omega

theorem decodeRest_spec (f : Frame) (headerLen : Nat)
    (hctrl : f.opcode.is_control = true → f.fin = true ∧ f.payload.length ≤ 125) :
    decodeRest f.opcode f.fin f.rsv1 f.rsv2 f.rsv3 f.mask.isSome f.payload.length headerLen
      (maskedPayload f.mask f.payload) =
    DecodeResult.frame f (headerLen + (if f.mask.isSome then 4 else 0) + f.payload.length) := by
  obtain ⟨fin, r1, r2, r3, op, mask, payload⟩ := f
  simp only at hctrl ⊢
  have hc : (op.is_control && (!fin || decide (125 < payload.length))) = false := by
    cases hco : op.is_control
    · simp
    · obtain ⟨hfin, hlen⟩ := hctrl hco
      subst hfin
      simp [Nat.not_lt.mpr hlen]
  cases mask with
  | none =>
      simp [decodeRest, maskedPayload, hc, List.take_length]
  | some k =>
      obtain ⟨k1, k2, k3, k4⟩ := k
      simp [decodeRest, maskedPayload, hc, maskBytes_length, take_maskBytes,
            maskBytes_maskBytes]

/-- C7: for every frame constructible under the control-frame size and opcode
constraints (control frames unfragmented with payload of at most 125 bytes,
and a payload length representable on 64 bits), decoding the encoding of the
frame yields the frame again, consuming exactly its encoding. -/
theorem decode_encode (f : Frame)
    (hctrl : f.opcode.is_control = true → f.fin = true ∧ f.payload.length ≤ 125)
    (hlen : f.payload.length < 18446744073709551616) :
    decode f.encode = DecodeResult.frame f f.encode.length := by
  obtain ⟨hop, hfin, hr1, hr2, hr3⟩ := headerByte_spec f.fin f.rsv1 f.rsv2 f.rsv3 f.opcode
  by_cases h1 : f.payload.length < 126
  · have hb := maskBit_spec f.mask.isSome f.payload.length (by omega)
    have he : f.encode = headerByte f.fin f.rsv1 f.rsv2 f.rsv3 f.opcode ::
        ((if f.mask.isSome then 128 else 0) + f.payload.length) ::
        maskedPayload f.mask f.payload := by
      simp [Frame.encode, h1]
    rw [he]
    simp only [decode, hop, hfin, hr1, hr2, hr3, hb.1, hb.2]
    rw [if_pos h1]
    rw [decodeRest_spec f 2 hctrl]
    simp [maskedPayload_length]
    omega
  · by_cases h2 : f.payload.length < 65536
    · have hb := maskBit_spec f.mask.isSome 126 (by omega)
      have he : f.encode = headerByte f.fin f.rsv1 f.rsv2 f.rsv3 f.opcode ::
          ((if f.mask.isSome then 128 else 0) + 126) ::
          (beBytes 2 f.payload.length ++ maskedPayload f.mask f.payload) := by
        simp [Frame.encode, h1, h2]
      rw [he]
      simp only [decode, hop, hfin, hr1, hr2, hr3, hb.1, hb.2]
      rw [if_neg (by omega), if_pos trivial]
      rw [if_neg (by simp [beBytes_length, List.length_append])]
      rw [List.take_left' (beBytes_length 2 _), List.drop_left' (beBytes_length 2 _)]
      rw [fromBe_beBytes 2 _ (by norm_num; omega)]
      rw [if_neg h1]
      rw [decodeRest_spec f 4 hctrl]
      simp [maskedPayload_length, beBytes_length]
      omega
    · have hb := maskBit_spec f.mask.isSome 127 (by omega)
      have he : f.encode = headerByte f.fin f.rsv1 f.rsv2 f.rsv3 f.opcode ::
          ((if f.mask.isSome then 128 else 0) + 127) ::
          (beBytes 8 f.payload.length ++ maskedPayload f.mask f.payload) := by
        simp [Frame.encode, h1, h2]
      rw [he]
      simp only [decode, hop, hfin, hr1, hr2, hr3, hb.1, hb.2]
      rw [if_neg (by omega), if_neg (by omega)]
      rw [if_neg (by simp [beBytes_length, List.length_append])]
      rw [List.take_left' (beBytes_length 8 _), List.drop_left' (beBytes_length 8 _)]
      rw [fromBe_beBytes 8 _ (by norm_num; omega)]
      rw [if_neg h2]
      rw [decodeRest_spec f 10 hctrl]
      simp [maskedPayload_length, beBytes_length]
      omega

/-- Witness for C7 at a concrete masked Ping frame. -/
theorem decode_encode_witness :
    ((Frame.mk true false false false OpCode.Ping
        (some (MaskingKey.mk 9 17 255 3)) [1, 2, 3]).opcode.is_control = true →
      (Frame.mk true false false false OpCode.Ping
        (some (MaskingKey.mk 9 17 255 3)) [1, 2, 3]).fin = true ∧
      (Frame.mk true false false false OpCode.Ping
        (some (MaskingKey.mk 9 17 255 3)) [1, 2, 3]).payload.length ≤ 125) ∧
    (Frame.mk true false false false OpCode.Ping
        (some (MaskingKey.mk 9 17 255 3)) [1, 2, 3]).payload.length <
      18446744073709551616 ∧
    decode (Frame.mk true false false false OpCode.Ping
        (some (MaskingKey.mk 9 17 255 3)) [1, 2, 3]).encode =
      DecodeResult.frame
        (Frame.mk true false false false OpCode.Ping
          (some (MaskingKey.mk 9 17 255 3)) [1, 2, 3])
        (Frame.mk true false false false OpCode.Ping
          (some (MaskingKey.mk 9 17 255 3)) [1, 2, 3]).encode.length :=
  ⟨by decide, by decide, decode_encode _ (by decide) (by decide)⟩

end WsRs
